import Mathlib

/-!
# EngGenius — AI English Tutor: verification of the audio cache / playback layer

Shallow embedding of the state-bearing core of `src/App.tsx`: the audio-buffer
cache, the in-flight request tracker, the deduplicating fetcher
(`fetchAudioBuffer`), the preload effect, the generation handler
(`handleGenerate`), and the single-slot playback controller
(`playAudio` / `stopAudio` / `openPractice`), together with the data model of
`src/types.ts`.

JavaScript `Map` objects (`audioCacheRef`, `pendingRequestsRef`) are embedded
as insertion-ordered association lists with `mapGet` / `mapHas` / `mapSet` /
`mapDelete` mirroring `Map.get` / `Map.has` / `Map.set` / `Map.delete`.
Opaque `AudioBuffer` values are embedded as `Nat` tags; a pending promise is
identified by a `Nat` promise id allocated from a counter, so that "two calls
await the same promise" is "two calls hold the same promise id".
Since the browser runtime is single-threaded, the synchronous prefix of each
handler (everything up to its first `await`) runs atomically; each such prefix
is one Lean function, and the code after an `await` is a separate
continuation function taking the outcome of the awaited operation.
-/

/-- `Difficulty` enum from `src/types.ts`. -/
inductive Difficulty where
  | EASY | MEDIUM | ADVANCED
deriving DecidableEq, Repr

/-- `VoiceName` enum from `src/types.ts` (values `'Puck'`, `'Charon'`,
`'Kore'`, `'Fenrir'`, `'Zephyr'`). -/
inductive VoiceName where
  | Puck | Charon | Kore | Fenrir | Zephyr
deriving DecidableEq, Repr

/-- The string value of a `VoiceName` enum member (in TS the enum member *is*
this string, which is what the template literal interpolates). -/
def VoiceName.str : VoiceName → String
  | .Puck => "Puck"
  | .Charon => "Charon"
  | .Kore => "Kore"
  | .Fenrir => "Fenrir"
  | .Zephyr => "Zephyr"

/-- `SentencePair` from `src/types.ts`. -/
structure SentencePair where
  english : String
  vietnamese : String
deriving DecidableEq, Repr

/-- `GeneratedResponse` from `src/types.ts`. -/
structure GeneratedResponse where
  english : String
  vietnamese : String
  sentences : List SentencePair
deriving DecidableEq, Repr

/-- Playback identifiers: `'full'` sentinel or a zero-based sentence index
(`playAudio(result.english, 'full')`, `playAudio(sentence.english, idx)`). -/
inductive AudioId where
  | full
  | sentence (i : Nat)
deriving DecidableEq, Repr

/-- Practice-view kinds: `'question' | 'answer' | 'sentence'` in `App.tsx`. -/
inductive PracticeType where
  | question | answer | sentence
deriving DecidableEq, Repr

/-! ## JavaScript `Map` embedding -/

/-- `Map.has k` on an insertion-ordered association list. -/
def mapHas {α : Type} (m : List (String × α)) (k : String) : Bool :=
  m.any (fun p => p.1 == k)

/-- `Map.get k` (as an `Option`, `none` when absent). -/
def mapGet {α : Type} (m : List (String × α)) (k : String) : Option α :=
  (m.find? (fun p => p.1 == k)).map (·.2)

/-- `Map.set k v`: replace in place if the key is present, else append. -/
def mapSet {α : Type} (m : List (String × α)) (k : String) (v : α) :
    List (String × α) :=
  if mapHas m k then
    m.map (fun p => if p.1 == k then (k, v) else p)
  else
    m ++ [(k, v)]

/-- `Map.delete k`: remove any entry with this key. -/
def mapDelete {α : Type} (m : List (String × α)) (k : String) :
    List (String × α) :=
  m.filter (fun p => p.1 != k)

/-! ## Cache keys

`App.tsx` line 48: `` const cacheKey = `${voice}:${text}` ``. -/

/-- Cache key construction from `fetchAudioBuffer`. -/
def cacheKey (voice : VoiceName) (text : String) : String :=
  voice.str ++ ":" ++ text

/-! ## Application state

One record per piece of React state / ref in `App` (`src/App.tsx`), restricted
to the state the cache/playback layer reads or writes. `AudioBuffer` values
are opaque `Nat` tags; a pending fetch is identified by a promise id drawn
from the counter `nextPid`; `networkCalls` counts invocations of the external
`generateSpeech` backend; `userErrorAlerts` counts `alert(...)` calls on
user-triggered playback failures. -/
structure AppState where
  question : String
  difficulty : Difficulty
  result : Option GeneratedResponse
  isGenerating : Bool
  ttsVoice : VoiceName
  ttsSpeed : Nat
  activeAudioId : Option AudioId
  loadingAudioId : Option AudioId
  sourceNode : Option Nat
  audioContextInit : Bool
  audioCache : List (String × Nat)
  pendingRequests : List (String × Nat)
  nextPid : Nat
  networkCalls : Nat
  userErrorAlerts : Nat
  practiceModalOpen : Bool
  practiceType : PracticeType
  practiceText : String
deriving DecidableEq, Repr

/-- JavaScript `String.prototype.trim`, used by `handleGenerate`'s blank-input
guard: drop whitespace from both ends. -/
def jsTrim (s : String) : String :=
  ⟨((s.data.dropWhile Char.isWhitespace).reverse.dropWhile
      Char.isWhitespace).reverse⟩

/-- What the synchronous part of `fetchAudioBuffer` hands back: a cache hit, a
join onto an already-pending promise, or a freshly started fetch (which is the
only case that touches the network). -/
inductive FetchResult where
  | cached (buf : Nat)
  | pendingJoin (pid : Nat)
  | newFetch (pid : Nat)
deriving DecidableEq, Repr

/-- Outcome of the awaited fetch-and-decode operation. -/
inductive FetchOutcome where
  | success (buf : Nat)
  | failure
deriving DecidableEq, Repr

/-- Synchronous prefix of `fetchAudioBuffer` (`App.tsx` 47-86): check the
cache, check the pending map, else start a new fetch — `generateSpeech` is
invoked and the new promise is stored in `pendingRequests` before control can
yield to any other task. -/
def fetchAudioBufferStart (s : AppState) (text : String) (voice : VoiceName) :
    AppState × FetchResult :=
  let key := cacheKey voice text
  match mapGet s.audioCache key with
  | some buf => (s, .cached buf)
  | none =>
    match mapGet s.pendingRequests key with
    | some pid => (s, .pendingJoin pid)
    | none =>
      let pid := s.nextPid
      ({ s with
          networkCalls := s.networkCalls + 1
          pendingRequests := mapSet s.pendingRequests key pid
          nextPid := pid + 1 },
        .newFetch pid)

/-- Continuation of `fetchAudioBuffer`'s inner async block after the awaited
fetch+decode settles (`App.tsx` 61-80): on success store the buffer in the
cache; in the `finally`, delete the pending entry either way. -/
def fetchAudioBufferSettle (s : AppState) (text : String) (voice : VoiceName)
    (out : FetchOutcome) : AppState :=
  let key := cacheKey voice text
  match out with
  | .success buf =>
      { s with
          audioCache := mapSet s.audioCache key buf
          pendingRequests := mapDelete s.pendingRequests key }
  | .failure =>
      { s with pendingRequests := mapDelete s.pendingRequests key }

/-- The outcome a caller of `fetchAudioBuffer` eventually observes, given the
resolution `res` of each promise id: a cache hit resolves immediately with the
buffer; both the creator of a pending promise and any joiner await that same
promise. -/
def fetchEventualOutcome (r : FetchResult) (res : Nat → FetchOutcome) :
    FetchOutcome :=
  match r with
  | .cached buf => .success buf
  | .pendingJoin pid => res pid
  | .newFetch pid => res pid

/-- `stopAudio` (`App.tsx` 130-136): stop and drop the source node, clear the
active id. -/
def stopAudio (s : AppState) : AppState :=
  { s with sourceNode := none, activeAudioId := none }

/-- Synchronous prefix of `handleGenerate` (`App.tsx` 107-119), up to the
`await generateAnswer(...)`. Returns the state at the instant the generation
call is issued, and whether it was issued at all (`false` on the blank-input
early return). -/
def handleGenerateStart (s : AppState) : AppState × Bool :=
  if jsTrim s.question = "" then (s, false)
  else
    let s1 := { s with isGenerating := true, result := none }
    let s2 := stopAudio s1
    let s3 := { s2 with audioCache := [], pendingRequests := [] }
    let s4 := { s3 with audioContextInit := true }
    (s4, true)

/-- Synchronous prefix of `playAudio` (`App.tsx` 138-146): toggle off when the
clicked id is already active (terminal, no fetch — second component `false`);
otherwise stop current playback and mark the id as loading (second component
`true`, the fetch follows). -/
def playAudioStart (s : AppState) (id : AudioId) : AppState × Bool :=
  if s.activeAudioId = some id then
    (stopAudio s, false)
  else
    let s1 := stopAudio s
    ({ s1 with loadingAudioId := some id }, true)

/-- Continuation of `playAudio` after its awaited `fetchAudioBuffer` settles
(`App.tsx` 148-176): on success connect and start a source for the buffer and
set the active id; on failure alert the user; in the `finally`, clear the
loading id. -/
def playAudioFinish (s : AppState) (id : AudioId) (out : FetchOutcome) :
    AppState :=
  match out with
  | .success buf =>
      { s with
          audioContextInit := true
          sourceNode := some buf
          activeAudioId := some id
          loadingAudioId := none }
  | .failure =>
      { s with
          userErrorAlerts := s.userErrorAlerts + 1
          loadingAudioId := none }

/-- The `source.onended` callback registered by `playAudio` (`App.tsx`
164-166): natural end of playback clears the active id. -/
def onEnded (s : AppState) : AppState :=
  { s with activeAudioId := none }

/-- `openPractice` (`App.tsx` 179-183): record the practice target and show
the modal. -/
def openPractice (s : AppState) (ty : PracticeType) (text : String) :
    AppState :=
  { s with
      practiceType := ty
      practiceText := text
      practiceModalOpen := true }

/-- The list of `fetchAudioBuffer` calls issued by the preload effect
(`App.tsx` 89-105) in one run: nothing when there is no result or its
`english` is the empty string (falsy guard `result?.english`); otherwise the
full English text followed by every sentence's English text, all under the
currently selected voice. -/
def preloadCalls (s : AppState) : List (String × VoiceName) :=
  match s.result with
  | none => []
  | some r =>
    if r.english = "" then []
    else (r.english, s.ttsVoice) ::
      r.sentences.map (fun p => (p.english, s.ttsVoice))

/-- Run the preload effect's synchronous fan-out: each listed call starts its
fetch without awaiting any other (each `.catch` only logs, so no outcome is
consulted and no state beyond the fetcher's own is touched). -/
def preloadRun (s : AppState) : List (String × VoiceName) → AppState
  | [] => s
  | (t, v) :: rest => preloadRun (fetchAudioBufferStart s t v).1 rest

/-- A concrete app state used to instantiate the verified properties:
the component's initial state (`useState` initialisers in `App.tsx` 9-36)
with zeroed counters. -/
def initState : AppState :=
  { question := ""
    difficulty := .MEDIUM
    result := none
    isGenerating := false
    ttsVoice := .Puck
    ttsSpeed := 10
    activeAudioId := none
    loadingAudioId := none
    sourceNode := none
    audioContextInit := false
    audioCache := []
    pendingRequests := []
    nextPid := 0
    networkCalls := 0
    userErrorAlerts := 0
    practiceModalOpen := false
    practiceType := .question
    practiceText := "" }

/-! ## Lemmas and verified properties -/

/-! ### Map lemmas -/

theorem mapGet_mapSet_self {α : Type} (m : List (String × α)) (k : String)
    (v : α) : mapGet (mapSet m k v) k = some v := by
  unfold mapSet
  split
  · rename_i h
    unfold mapHas at h
    induction m with
    | nil => simp at h
    | cons p rest ih =>
      simp only [List.map_cons, mapGet, List.find?]
      by_cases hp : p.1 == k
      · simp [hp]
      · simp only [hp, if_neg, Bool.false_eq_true, not_false_iff]
        simp only [List.any_cons, hp, Bool.false_or] at h
        have := ih h
        simpa [mapGet, hp] using this
  · rename_i h
    unfold mapHas at h
    induction m with
    | nil => simp [mapGet]
    | cons p rest ih =>
      simp only [List.any_cons, Bool.or_eq_true, not_or] at h
      simp only [List.cons_append, mapGet, List.find?]
      have hp : (p.1 == k) = false := by
        cases hpk : p.1 == k
        · rfl
        · exact absurd hpk h.1
      simp only [hp]
      have := ih (by simpa using h.2)
      simpa [mapGet] using this

theorem mapGet_mapDelete_self {α : Type} (m : List (String × α)) (k : String) :
    mapGet (mapDelete m k) k = none := by
  unfold mapGet mapDelete
  induction m with
  | nil => simp
  | cons p rest ih =>
    simp only [List.filter_cons]
    by_cases hp : p.1 == k
    · simp only [bne, hp, Bool.not_true]
      exact ih
    · have hp' : (p.1 != k) = true := by simp [bne, hp]
      simp only [hp', if_pos]
      simp only [List.find?]
      have hpf : (p.1 == k) = false := by simpa using hp
      simp only [hpf]
      exact ih

theorem mapHas_mapDelete_self {α : Type} (m : List (String × α)) (k : String) :
    mapHas (mapDelete m k) k = false := by
  unfold mapHas mapDelete
  induction m with
  | nil => simp
  | cons p rest ih =>
    simp only [List.filter_cons]
    by_cases hp : p.1 == k
    · simp only [bne, hp, Bool.not_true]
      exact ih
    · have hp' : (p.1 != k) = true := by simp [bne, hp]
      simp only [hp', if_pos, List.any_cons]
      have hpf : (p.1 == k) = false := by simpa using hp
      simp [hpf, ih]

theorem mapGet_mapDelete_ne {α : Type} (m : List (String × α)) (k k' : String)
    (h : k' ≠ k) : mapGet (mapDelete m k) k' = mapGet m k' := by
  unfold mapGet mapDelete
  induction m with
  | nil => simp
  | cons p rest ih =>
    simp only [List.filter_cons, List.find?]
    by_cases hp : p.1 == k
    · have hpk : p.1 = k := by simpa using hp
      have hpk' : (p.1 == k') = false := by
        simp only [beq_eq_false_iff_ne, ne_eq, hpk]
        exact fun hh => h hh.symm
      simp only [bne, hp, Bool.not_true, hpk']
      exact ih
    · have hp' : (p.1 != k) = true := by simp [bne, hp]
      simp only [hp', if_pos, List.find?]
      by_cases hq : p.1 == k'
      · simp [hq]
      · have hqf : (p.1 == k') = false := by simpa using hq
        simp only [hqf]
        exact ih

theorem mapGet_eq_none_filter {α : Type} (m : List (String × α)) (k : String)
    (h : mapGet m k = none) : m.filter (fun p => p.1 == k) = [] := by
  induction m with
  | nil => rfl
  | cons p rest ih =>
    unfold mapGet at h
    simp only [List.find?] at h
    cases hp : p.1 == k with
    | true => simp [hp] at h
    | false =>
      simp only [hp] at h
      simp only [List.filter_cons, hp, if_neg, Bool.false_eq_true,
        not_false_iff]
      exact ih h

/-- No voice-name string contains a colon. -/
theorem voice_str_no_colon (v : VoiceName) : ':' ∉ v.str.data := by
  cases v <;> decide

/-- Splitting a character list at the first colon is unambiguous when neither
candidate head contains a colon. -/
theorem splitAtColon (l1 : List Char) : ∀ (l2 t1 t2 : List Char),
    ':' ∉ l1 → ':' ∉ l2 → l1 ++ ':' :: t1 = l2 ++ ':' :: t2 →
    l1 = l2 ∧ t1 = t2 := by
  induction l1 with
  | nil =>
    intro l2 t1 t2 _ h2 heq
    cases l2 with
    | nil => simpa using heq
    | cons c l2' =>
      simp only [List.nil_append, List.cons_append, List.cons.injEq] at heq
      exact absurd (heq.1 ▸ List.mem_cons_self c l2') (heq.1 ▸ h2)
  | cons c l1' ih =>
    intro l2 t1 t2 h1 h2 heq
    cases l2 with
    | nil =>
      simp only [List.cons_append, List.nil_append, List.cons.injEq] at heq
      exact absurd (heq.1 ▸ List.mem_cons_self c l1') (heq.1 ▸ h1)
    | cons d l2' =>
      simp only [List.cons_append, List.cons.injEq] at heq
      obtain ⟨hcd, hrest⟩ := heq
      have h1' : ':' ∉ l1' := fun hh => h1 (List.mem_cons_of_mem c hh)
      have h2' : ':' ∉ l2' := fun hh => h2 (List.mem_cons_of_mem d hh)
      obtain ⟨he, ht⟩ := ih l2' t1 t2 h1' h2' hrest
      exact ⟨by rw [hcd, he], ht⟩

/-- Voice strings are pairwise distinct as character lists. -/
theorem voice_str_data_inj (v1 v2 : VoiceName)
    (h : v1.str.data = v2.str.data) : v1 = v2 := by
  cases v1 <;> cases v2 <;> first | rfl | (exact absurd h (by decide))

theorem mapHas_false_of_mapGet_none {α : Type} (m : List (String × α))
    (k : String) (h : mapGet m k = none) : mapHas m k = false := by
  unfold mapGet at h
  unfold mapHas
  induction m with
  | nil => rfl
  | cons p rest ih =>
    simp only [List.find?] at h
    cases hp : p.1 == k with
    | true => simp [hp] at h
    | false =>
      simp only [hp] at h
      simp [hp, ih h]

theorem fetchStart_activeAudioId (s : AppState) (t : String) (v : VoiceName) :
    (fetchAudioBufferStart s t v).1.activeAudioId = s.activeAudioId := by
  cases hc : mapGet s.audioCache (cacheKey v t) with
  | some buf => simp [fetchAudioBufferStart, hc]
  | none =>
    cases hp : mapGet s.pendingRequests (cacheKey v t) <;>
      simp [fetchAudioBufferStart, hc, hp]

/-! ## Claim theorems -/

/-- C1: overlapping fetches deduplicate. When a `fetchAudioBuffer` call
cold-starts the fetch for a (text, voice) pair — yielding `.newFetch pid` — a
second call for the identical pair arriving while that fetch is pending joins
the very same promise `pid` and leaves the state entirely unchanged (so no
second network call is issued); across both calls the network counter rose
exactly once, and the in-flight tracker holds exactly one outstanding entry
for the key. -/
theorem c1_overlapping_fetch_dedup (s : AppState) (t : String) (v : VoiceName)
    (pid : Nat) (h : (fetchAudioBufferStart s t v).2 = .newFetch pid) :
    fetchAudioBufferStart (fetchAudioBufferStart s t v).1 t v
      = ((fetchAudioBufferStart s t v).1, .pendingJoin pid)
    ∧ (fetchAudioBufferStart s t v).1.networkCalls = s.networkCalls + 1
    ∧ ((fetchAudioBufferStart s t v).1.pendingRequests.filter
        (fun p => p.1 == cacheKey v t)).length = 1 := by
  cases hc : mapGet s.audioCache (cacheKey v t) with
  | some buf => simp [fetchAudioBufferStart, hc] at h
  | none =>
    cases hp : mapGet s.pendingRequests (cacheKey v t) with
    | some pid' => simp [fetchAudioBufferStart, hc, hp] at h
    | none =>
      have hpid : pid = s.nextPid := by
        simp [fetchAudioBufferStart, hc, hp] at h
        exact h.symm
      subst hpid
      have hhas : mapHas s.pendingRequests (cacheKey v t) = false :=
        mapHas_false_of_mapGet_none _ _ hp
      have hset : mapSet s.pendingRequests (cacheKey v t) s.nextPid
          = s.pendingRequests ++ [(cacheKey v t, s.nextPid)] := by
        unfold mapSet
        rw [hhas]
        simp
      refine ⟨?_, by simp [fetchAudioBufferStart, hc, hp], ?_⟩
      · have hstate : (fetchAudioBufferStart s t v).1
            = { s with
                networkCalls := s.networkCalls + 1
                pendingRequests := mapSet s.pendingRequests (cacheKey v t)
                  s.nextPid
                nextPid := s.nextPid + 1 } := by
          simp [fetchAudioBufferStart, hc, hp]
        rw [hstate]
        unfold fetchAudioBufferStart
        simp [hc, mapGet_mapSet_self]
      · have hstate : (fetchAudioBufferStart s t v).1.pendingRequests
            = mapSet s.pendingRequests (cacheKey v t) s.nextPid := by
          simp [fetchAudioBufferStart, hc, hp]
        rw [hstate, hset, List.filter_append,
          mapGet_eq_none_filter s.pendingRequests (cacheKey v t) hp]
        simp

/-- C1 witness: a concrete overlapping pair of fetches on the initial state
for the text "hello" under voice Puck. -/
theorem c1_overlapping_fetch_dedup_witness :
    fetchAudioBufferStart
        (fetchAudioBufferStart initState "hello" VoiceName.Puck).1 "hello"
        VoiceName.Puck
      = ((fetchAudioBufferStart initState "hello" VoiceName.Puck).1,
          .pendingJoin 0)
    ∧ (fetchAudioBufferStart initState "hello" VoiceName.Puck).1.networkCalls
      = initState.networkCalls + 1
    ∧ ((fetchAudioBufferStart initState "hello"
          VoiceName.Puck).1.pendingRequests.filter
        (fun p => p.1 == cacheKey VoiceName.Puck "hello")).length = 1 :=
  c1_overlapping_fetch_dedup initState "hello" VoiceName.Puck 0 (by decide)

/-- C2: cache hit after success. After the fetch-and-decode for (text, voice)
settles successfully, a subsequent `fetchAudioBuffer` for the identical pair
returns the cached buffer with the state entirely unchanged — in particular
no network call is issued. -/
theorem c2_cache_hit_after_success (s : AppState) (t : String) (v : VoiceName)
    (buf : Nat) :
    fetchAudioBufferStart (fetchAudioBufferSettle s t v (.success buf)) t v
      = (fetchAudioBufferSettle s t v (.success buf), .cached buf) := by
  unfold fetchAudioBufferStart fetchAudioBufferSettle
  simp [mapGet_mapSet_self]

/-- C3: tracker cleanup and failure propagation. Once the fetch-and-decode
operation settles — success or failure — the in-flight tracker no longer
holds an entry for the key; on failure the audio cache is untouched; and the
call that created the pending promise and any call that joined it observe the
outcome of that same single promise. -/
theorem c3_settle_cleans_tracker (s : AppState) (t : String) (v : VoiceName)
    (out : FetchOutcome) (pid : Nat) (res : Nat → FetchOutcome) :
    mapHas (fetchAudioBufferSettle s t v out).pendingRequests (cacheKey v t)
      = false
    ∧ (fetchAudioBufferSettle s t v .failure).audioCache = s.audioCache
    ∧ fetchEventualOutcome (.newFetch pid) res
        = fetchEventualOutcome (.pendingJoin pid) res := by
  refine ⟨?_, rfl, rfl⟩
  unfold fetchAudioBufferSettle
  cases out <;> simp [mapHas_mapDelete_self]

/-- C4: a brand-new generation request (non-blank question) stops playback and
empties both the audio cache and the in-flight tracker, all in effect at the
instant the generation call is issued; consequently a fetch issued afterwards
— even for a (text, voice) key that was cached beforehand — cold-starts and
issues a fresh network call. -/
theorem c4_generate_clears (s : AppState) (t : String) (v : VoiceName)
    (hq : jsTrim s.question ≠ "")
    (_hc : mapHas s.audioCache (cacheKey v t) = true) :
    (handleGenerateStart s).2 = true
    ∧ (handleGenerateStart s).1.sourceNode = none
    ∧ (handleGenerateStart s).1.activeAudioId = none
    ∧ (handleGenerateStart s).1.audioCache = []
    ∧ (handleGenerateStart s).1.pendingRequests = []
    ∧ (fetchAudioBufferStart (handleGenerateStart s).1 t v).2
        = .newFetch s.nextPid
    ∧ (fetchAudioBufferStart (handleGenerateStart s).1 t v).1.networkCalls
        = s.networkCalls + 1 := by
  have hg : handleGenerateStart s
      = ({ s with
            isGenerating := true
            result := none
            sourceNode := none
            activeAudioId := none
            audioCache := []
            pendingRequests := []
            audioContextInit := true }, true) := by
    unfold handleGenerateStart stopAudio
    rw [if_neg hq]
  rw [hg]
  refine ⟨rfl, rfl, rfl, rfl, rfl, ?_, ?_⟩ <;>
    simp [fetchAudioBufferStart, mapGet]

/-- C4 witness: a state with a non-blank question and a cached entry for
(Puck, "x"); after the generation step the fetch for "x" cold-starts. -/
theorem c4_generate_clears_witness :
    (handleGenerateStart { initState with
        question := "Hi", audioCache := [(cacheKey VoiceName.Puck "x", 5)] }).2
      = true
    ∧ (handleGenerateStart { initState with
        question := "Hi",
        audioCache := [(cacheKey VoiceName.Puck "x", 5)] }).1.sourceNode = none
    ∧ (handleGenerateStart { initState with
        question := "Hi",
        audioCache := [(cacheKey VoiceName.Puck "x", 5)] }).1.activeAudioId
      = none
    ∧ (handleGenerateStart { initState with
        question := "Hi",
        audioCache := [(cacheKey VoiceName.Puck "x", 5)] }).1.audioCache = []
    ∧ (handleGenerateStart { initState with
        question := "Hi",
        audioCache := [(cacheKey VoiceName.Puck "x", 5)] }).1.pendingRequests
      = []
    ∧ (fetchAudioBufferStart (handleGenerateStart { initState with
        question := "Hi",
        audioCache := [(cacheKey VoiceName.Puck "x", 5)] }).1 "x"
        VoiceName.Puck).2
      = .newFetch ({ initState with
          question := "Hi",
          audioCache := [(cacheKey VoiceName.Puck "x", 5)] } : AppState).nextPid
    ∧ (fetchAudioBufferStart (handleGenerateStart { initState with
        question := "Hi",
        audioCache := [(cacheKey VoiceName.Puck "x", 5)] }).1 "x"
        VoiceName.Puck).1.networkCalls
      = ({ initState with
          question := "Hi",
          audioCache := [(cacheKey VoiceName.Puck "x", 5)] } : AppState).networkCalls + 1 :=
  c4_generate_clears { initState with
      question := "Hi", audioCache := [(cacheKey VoiceName.Puck "x", 5)] }
    "x" VoiceName.Puck (by decide) (by decide)

/-- C5: clicking the already-active id toggles playback off: the call is
terminal (no fetch is performed) and the resulting state is exactly the input
state with the source node stopped and the active id cleared — `loadingId`,
the cache, the tracker and every other field are untouched. -/
theorem c5_toggle_off (s : AppState) (id : AudioId)
    (h : s.activeAudioId = some id) :
    (playAudioStart s id).2 = false
    ∧ (playAudioStart s id).1
        = { s with sourceNode := none, activeAudioId := none } := by
  unfold playAudioStart
  rw [if_pos h]
  exact ⟨rfl, rfl⟩

/-- C5 witness: toggling off the actively-sounding 'full' id. -/
theorem c5_toggle_off_witness :
    (playAudioStart { initState with
        activeAudioId := some AudioId.full, sourceNode := some 3 }
      AudioId.full).2 = false
    ∧ (playAudioStart { initState with
        activeAudioId := some AudioId.full, sourceNode := some 3 }
      AudioId.full).1
      = { ({ initState with
            activeAudioId := some AudioId.full,
            sourceNode := some 3 } : AppState) with
          sourceNode := none, activeAudioId := none } :=
  c5_toggle_off { initState with
      activeAudioId := some AudioId.full, sourceNode := some 3 }
    AudioId.full (by decide)

/-- C6: single active slot. Starting playback of id b while a different id a
is active first stops a — immediately after the synchronous prefix the active
id is `none` and the source node is released — and the active id stays `none`
through the fetch step; only the final success step sets it to b, and the
registered `onended` callback clears it back to `none` when playback finishes
naturally. At no traced instant are two ids active, and a is never active
again once stopped. -/
theorem c6_single_active (s : AppState) (t : String) (a b : AudioId)
    (buf : Nat) (h1 : s.activeAudioId = some a) (h2 : a ≠ b) :
    (playAudioStart s b).2 = true
    ∧ (playAudioStart s b).1.activeAudioId = none
    ∧ (playAudioStart s b).1.sourceNode = none
    ∧ (fetchAudioBufferStart (playAudioStart s b).1 t
        s.ttsVoice).1.activeAudioId = none
    ∧ (playAudioFinish
        (fetchAudioBufferStart (playAudioStart s b).1 t s.ttsVoice).1 b
        (.success buf)).activeAudioId = some b
    ∧ (onEnded (playAudioFinish
        (fetchAudioBufferStart (playAudioStart s b).1 t s.ttsVoice).1 b
        (.success buf))).activeAudioId = none := by
  have hne : s.activeAudioId ≠ some b := by
    rw [h1]
    intro hh
    exact h2 (Option.some.injEq a b ▸ hh)
  have hp : playAudioStart s b
      = ({ s with
            sourceNode := none
            activeAudioId := none
            loadingAudioId := some b }, true) := by
    unfold playAudioStart stopAudio
    rw [if_neg hne]
  rw [hp]
  refine ⟨rfl, rfl, rfl, ?_, ?_, ?_⟩
  · rw [fetchStart_activeAudioId]
  · simp [playAudioFinish]
  · simp [onEnded]

/-- C6 witness: sentence 0 is active; playing 'full' stops it first, then
activates 'full', and the completion callback clears it. -/
theorem c6_single_active_witness :
    (playAudioStart { initState with
        activeAudioId := some (AudioId.sentence 0), sourceNode := some 1 }
      AudioId.full).2 = true
    ∧ (playAudioStart { initState with
        activeAudioId := some (AudioId.sentence 0), sourceNode := some 1 }
      AudioId.full).1.activeAudioId = none
    ∧ (playAudioStart { initState with
        activeAudioId := some (AudioId.sentence 0), sourceNode := some 1 }
      AudioId.full).1.sourceNode = none
    ∧ (fetchAudioBufferStart (playAudioStart { initState with
        activeAudioId := some (AudioId.sentence 0), sourceNode := some 1 }
        AudioId.full).1 "x"
        ({ initState with
            activeAudioId := some (AudioId.sentence 0),
            sourceNode := some 1 } : AppState).ttsVoice).1.activeAudioId = none
    ∧ (playAudioFinish
        (fetchAudioBufferStart (playAudioStart { initState with
          activeAudioId := some (AudioId.sentence 0), sourceNode := some 1 }
          AudioId.full).1 "x"
          ({ initState with
              activeAudioId := some (AudioId.sentence 0),
              sourceNode := some 1 } : AppState).ttsVoice).1 AudioId.full
        (.success 7)).activeAudioId = some AudioId.full
    ∧ (onEnded (playAudioFinish
        (fetchAudioBufferStart (playAudioStart { initState with
          activeAudioId := some (AudioId.sentence 0), sourceNode := some 1 }
          AudioId.full).1 "x"
          ({ initState with
              activeAudioId := some (AudioId.sentence 0),
              sourceNode := some 1 } : AppState).ttsVoice).1 AudioId.full
        (.success 7))).activeAudioId = none :=
  c6_single_active { initState with
      activeAudioId := some (AudioId.sentence 0), sourceNode := some 1 }
    "x" (AudioId.sentence 0) AudioId.full 7 (by decide) (by decide)

/-- C7 counterexample: the claim "opening the practice view stops any
currently active TTS playback before the modal is shown" is false on the
code — `openPractice` never calls `stopAudio`. Concretely, with 'full'
actively sounding through source node 2, opening the practice view shows the
modal while the active id and the playing source node are left in place. -/
theorem c7_counterexample :
    (openPractice { initState with
        activeAudioId := some AudioId.full, sourceNode := some 2 }
      PracticeType.answer "hi").practiceModalOpen = true
    ∧ (openPractice { initState with
        activeAudioId := some AudioId.full, sourceNode := some 2 }
      PracticeType.answer "hi").activeAudioId = some AudioId.full
    ∧ (openPractice { initState with
        activeAudioId := some AudioId.full, sourceNode := some 2 }
      PracticeType.answer "hi").sourceNode = some 2 :=
  ⟨rfl, rfl, rfl⟩

/-- C7 amended: opening the practice view records the practice type and
target text and shows the modal, but does not stop active TTS playback — the
active id and the source node are left exactly as they were (as is every
other field outside the practice-view state). -/
theorem c7_amended_open_practice (s : AppState) (ty : PracticeType)
    (tx : String) :
    (openPractice s ty tx).practiceModalOpen = true
    ∧ (openPractice s ty tx).practiceType = ty
    ∧ (openPractice s ty tx).practiceText = tx
    ∧ (openPractice s ty tx).activeAudioId = s.activeAudioId
    ∧ (openPractice s ty tx).sourceNode = s.sourceNode
    ∧ (openPractice s ty tx).loadingAudioId = s.loadingAudioId
    ∧ (openPractice s ty tx).audioCache = s.audioCache
    ∧ (openPractice s ty tx).pendingRequests = s.pendingRequests :=
  ⟨rfl, rfl, rfl, rfl, rfl, rfl, rfl, rfl⟩

/-- C8: one preloader run — triggered when a result with non-empty English
text is present (the effect re-runs on result or voice change) — issues
exactly 1 + sentenceCount `fetchAudioBuffer` calls: the full English text
first, then each sentence's English text, all under the current voice, in one
synchronous fan-out that never awaits any of them. An individual preload
failure only deletes its own key's pending entry: it leaves any other key's
pending fetch in place and raises no user-visible error. -/
theorem c8_preload_fanout (s s' : AppState) (r : GeneratedResponse)
    (t t' : String) (v : VoiceName)
    (hr : s.result = some r) (he : r.english ≠ "")
    (hk : cacheKey v t' ≠ cacheKey v t) :
    preloadCalls s = (r.english, s.ttsVoice) ::
        r.sentences.map (fun p => (p.english, s.ttsVoice))
    ∧ (preloadCalls s).length = 1 + r.sentences.length
    ∧ (fetchAudioBufferSettle s' t v .failure).userErrorAlerts
        = s'.userErrorAlerts
    ∧ mapGet (fetchAudioBufferSettle s' t v .failure).pendingRequests
        (cacheKey v t')
        = mapGet s'.pendingRequests (cacheKey v t') := by
  have hcalls : preloadCalls s = (r.english, s.ttsVoice) ::
      r.sentences.map (fun p => (p.english, s.ttsVoice)) := by
    unfold preloadCalls
    rw [hr]
    simp [he]
  refine ⟨hcalls, by rw [hcalls]; simp [Nat.add_comm], rfl, ?_⟩
  exact mapGet_mapDelete_ne s'.pendingRequests (cacheKey v t) (cacheKey v t') hk

/-- C8 witness: a two-sentence answer preloads three texts; a failed settle
for (Puck, "b") leaves the pending entry for (Puck, "a") alone. -/
theorem c8_preload_fanout_witness :
    preloadCalls { initState with
        result := some ⟨"A b.", "v", [⟨"A.", "va"⟩, ⟨"B.", "vb"⟩]⟩ }
      = [("A b.", VoiceName.Puck), ("A.", VoiceName.Puck),
          ("B.", VoiceName.Puck)]
    ∧ (preloadCalls { initState with
        result := some ⟨"A b.", "v", [⟨"A.", "va"⟩, ⟨"B.", "vb"⟩]⟩ }).length
      = 1 + ([⟨"A.", "va"⟩, ⟨"B.", "vb"⟩] : List SentencePair).length
    ∧ (fetchAudioBufferSettle { initState with
        pendingRequests := [(cacheKey VoiceName.Puck "a", 0)] } "b"
        VoiceName.Puck .failure).userErrorAlerts
      = ({ initState with
          pendingRequests :=
            [(cacheKey VoiceName.Puck "a", 0)] } : AppState).userErrorAlerts
    ∧ mapGet (fetchAudioBufferSettle { initState with
        pendingRequests := [(cacheKey VoiceName.Puck "a", 0)] } "b"
        VoiceName.Puck .failure).pendingRequests (cacheKey VoiceName.Puck "a")
      = mapGet ({ initState with
          pendingRequests :=
            [(cacheKey VoiceName.Puck "a", 0)] } : AppState).pendingRequests
          (cacheKey VoiceName.Puck "a") := by
  have h := c8_preload_fanout
    { initState with
        result := some ⟨"A b.", "v", [⟨"A.", "va"⟩, ⟨"B.", "vb"⟩]⟩ }
    { initState with
        pendingRequests := [(cacheKey VoiceName.Puck "a", 0)] }
    ⟨"A b.", "v", [⟨"A.", "va"⟩, ⟨"B.", "vb"⟩]⟩ "b" "a" VoiceName.Puck
    rfl (by decide) (by decide)
  exact ⟨h.1, h.2.1, h.2.2.1, h.2.2.2⟩

/-- C9: cache-key identity coincides with exact componentwise equality: for
voices drawn from the `VoiceName` enum, the computed keys `voice ++ ":" ++
text` are equal iff the voices are equal and the texts are equal as exact
strings — key construction is injective over (voice, text) pairs. (This rests
on no enum voice name containing a colon, so the first colon splits the key
unambiguously.) -/
theorem c9_cacheKey_injective (v1 v2 : VoiceName) (t1 t2 : String) :
    cacheKey v1 t1 = cacheKey v2 t2 ↔ v1 = v2 ∧ t1 = t2 := by
  constructor
  · intro h
    have hd : v1.str.data ++ ':' :: t1.data
        = v2.str.data ++ ':' :: t2.data := by
      have hc := congrArg String.data h
      simpa [cacheKey, String.data_append, List.append_assoc] using hc
    obtain ⟨hv, ht⟩ := splitAtColon v1.str.data v2.str.data t1.data t2.data
      (voice_str_no_colon v1) (voice_str_no_colon v2) hd
    exact ⟨voice_str_data_inj v1 v2 hv, String.ext ht⟩
  · rintro ⟨rfl, rfl⟩
    rfl

/-- C10: a blank question (empty after trimming) makes `handleGenerate`
return immediately: no generation request is issued and the state — result,
cache, tracker, active/loading ids, `isGenerating`, everything — is left
exactly as it was. -/
theorem c10_blank_question_noop (s : AppState)
    (h : jsTrim s.question = "") :
    handleGenerateStart s = (s, false) := by
  unfold handleGenerateStart
  rw [if_pos h]

/-- C10 witness: a whitespace-only question (spaces and a tab) is a no-op. -/
theorem c10_blank_question_noop_witness :
    handleGenerateStart { initState with question := "  \t " }
      = ({ initState with question := "  \t " }, false) :=
  c10_blank_question_noop { initState with question := "  \t " } (by decide)
